import Mathlib

/-!
Verification of the AIpex firmware core against its specification.

Shallow embedding of the C++ sources under `src/`:
  * `hailo_utils.cpp` / `hailo_object_detection.cpp` — NMS parsing,
    threshold filtering and JSON emission of the detection kernel;
  * `hailo_lowlight_enhance.cpp` — output-buffer selection and decoding
    of the enhancement kernel;
  * `service_impl.cpp` — the per-command step of the compute-side
    `Datastream` handler;
  * `grpc_client.cpp` — `Start`, `Send`, the detection-JSON box parser,
    and the bounded remote-frame queue;
  * `app_comm_service_impl.cpp` — the unary `SendJSON` endpoint.

Machine `float` values are modelled as rationals (`ℚ`): the properties at
stake are structural (which comparisons are made, which fields are copied,
which branches are taken), not rounding behaviour.  External calls (JPEG
decode/encode, the accelerator driver, the wire) are passed in as explicit
outcome parameters, mirroring exactly how their results are consumed.
-/

namespace AIpex

/-! ### Detection kernel data (`hailo_utils.h`, `hailo_utils.cpp`) -/

/-- A post-NMS box record.  The driver-side record layout
(`hailo_bbox_float32_t`) is external to the repository; the spec fixes it
as `(x_min, y_min, x_max, y_max, score)`. -/
structure HailoBBox where
  x_min : ℚ
  y_min : ℚ
  x_max : ℚ
  y_max : ℚ
  score : ℚ
deriving DecidableEq, Repr

/-- `NamedBbox` from `hailo_utils.h`: a box plus the class id attached by
`parse_nms_data`. -/
structure NamedBbox where
  bbox : HailoBBox
  class_id : ℕ
deriving DecidableEq, Repr

/-- `get_coco_name_from_int` (hailo_utils.cpp:23-33): the label table of the
deployed model — background plus three classes. -/
def get_coco_name_from_int (cls : ℤ) : String :=
  if cls = 1 then "bike"
  else if cls = 2 then "car"
  else if cls = 3 then "person"
  else if cls = 0 then "__background__"
  else "N/A"

/-- One per-class NMS group as laid out in output buffer zero: a float32
count followed by that many box records (glossary: "NMS output"). -/
def encodeGroup (records : List HailoBBox) : List ℚ :=
  (records.length : ℚ) ::
    (records.flatMap fun b => [b.x_min, b.y_min, b.x_max, b.y_max, b.score])

/-- A whole NMS output buffer: the concatenation of the per-class groups. -/
def encodeBuffer (groups : List (List HailoBBox)) : List ℚ :=
  groups.flatMap encodeGroup

/-- Read one box record (five consecutive floats) from the buffer,
mirroring the `reinterpret_cast<hailo_bbox_float32_t*>` read at
hailo_utils.cpp:86.  Reads past the end of the buffer yield zero (the C
code would read garbage there; the theorems below only evaluate it on
buffers long enough that this default is never consulted). -/
def readBBox (data : List ℚ) : HailoBBox × List ℚ :=
  ⟨⟨data.headD 0, (data.drop 1).headD 0, (data.drop 2).headD 0,
    (data.drop 3).headD 0, (data.drop 4).headD 0⟩, data.drop 5⟩

/-- Read `det_count` records for class `class_id`
(the inner loop of hailo_utils.cpp:85-93). -/
def readRecords (data : List ℚ) (class_id : ℕ) : ℕ → List NamedBbox × List ℚ
  | 0 => ([], data)
  | n + 1 =>
    let r := readBBox data
    let rest := readRecords r.2 class_id n
    (⟨r.1, class_id + 1⟩ :: rest.1, rest.2)

/-- The detection count prefix: the C code casts the leading float32 to
`uint32_t` (hailo_utils.cpp:82), i.e. truncates toward zero. -/
def detCount (q : ℚ) : ℕ := q.floor.toNat

/-- `parse_nms_data` (hailo_utils.cpp:77-96): for each
`class_id ∈ [0, max_class_count)` read a count and that many records,
tagging each record with `class_id + 1`. -/
def parse_nms_data (data : List ℚ) (max_class_count : ℕ) : List NamedBbox :=
  (go data 0 max_class_count).1
where
  go (data : List ℚ) (class_id : ℕ) : ℕ → List NamedBbox × List ℚ
    | 0 => ([], data)
    | n + 1 =>
      let cnt := detCount (data.headD 0)
      let recs := readRecords (data.drop 1) class_id cnt
      let rest := go recs.2 (class_id + 1) n
      (recs.1 ++ rest.1, rest.2)

/-- The class count `hailo_infer` passes to `parse_nms_data`
(hailo_object_detection.cpp:191): the hardcoded literal `80`. -/
def hailo_infer_class_count : ℕ := 80

/-! ### Threshold filter and JSON emission (`hailo_object_detection.cpp`) -/

/-- The filtering loop of hailo_infer (hailo_object_detection.cpp:195-200):
push each box whose score is `>=` the process-wide threshold. -/
def filtered_bboxes (bboxes : List NamedBbox) (threshold : ℚ) : List NamedBbox :=
  bboxes.foldl (fun acc b => if b.bbox.score ≥ threshold then acc ++ [b] else acc) []

/-- One serialized detection object, as filled by the `snprintf` at
hailo_object_detection.cpp:215-223. -/
structure DetRecord where
  «class» : String
  class_id : ℤ
  score : ℚ
  x_min : ℚ
  y_min : ℚ
  x_max : ℚ
  y_max : ℚ
deriving DecidableEq, Repr

/-- The record emitted for one filtered box. -/
def detRecordOf (b : NamedBbox) : DetRecord :=
  ⟨get_coco_name_from_int (b.class_id : ℤ), (b.class_id : ℤ),
    b.bbox.score, b.bbox.x_min, b.bbox.y_min, b.bbox.x_max, b.bbox.y_max⟩

/-- The JSON object `{"detections":[...],"count":N}` built by
hailo_object_detection.cpp:205-229, abstracted structurally. -/
structure DetectionsJson where
  detections : List DetRecord
  count : ℕ
deriving DecidableEq, Repr

/-- The JSON-building tail of `hailo_infer` (`return_image = false`):
serialize the filtered list in order and append its size as `count`. -/
def hailo_infer_json (bboxes : List NamedBbox) (threshold : ℚ) : DetectionsJson :=
  ⟨(filtered_bboxes bboxes threshold).map detRecordOf,
    (filtered_bboxes bboxes threshold).length⟩

/-! ### Enhancement kernel output reconstruction (`hailo_lowlight_enhance.cpp`) -/

/-- Which decode branch `hailo_lowlight_process` takes on the selected
output buffer. -/
inductive LLDecode where
  | u8
  | f32
deriving DecidableEq, Repr

/-- The value `hailo_lowlight_process` returns on success: the decode mode
used and the dimensions of `result_image`. -/
structure LLResult where
  mode : LLDecode
  rows : ℕ
  cols : ℕ
deriving DecidableEq, Repr

/-- The post-`run` reconstruction of `hailo_lowlight_process`
(hailo_lowlight_enhance.cpp:111-157), as a function of the output buffer
byte sizes, the model input dimensions and the original frame dimensions:

  * `expected_u8 = model_h * model_w * 3`;
  * select the first buffer whose size is `≥ expected_u8`
    (lines 114-122); fail (`return -1`) if none exists (lines 123-132);
  * on the selected buffer: if its size is `≥ expected_u8` decode as
    8-bit RGB, else if `≥ expected_u8 * 4` decode as float32 RGB
    (lines 136-153); either way convert RGB→BGR and resize to the
    original `input_frame.size()`, so the result has the input's
    dimensions; otherwise fail (lines 155-156). -/
def hailo_lowlight_reconstruct (sizes : List ℕ) (model_h model_w in_h in_w : ℕ) :
    Option LLResult :=
  let expected_u8 := model_h * model_w * 3
  match sizes.find? (fun sz => expected_u8 ≤ sz) with
  | none => none
  | some sz =>
    if expected_u8 ≤ sz then some ⟨.u8, in_h, in_w⟩
    else if expected_u8 * 4 ≤ sz then some ⟨.f32, in_h, in_w⟩
    else none

/-! ### Compute-side Datastream handler (`service_impl.cpp`) -/

/-- An image held in memory (`cv::Mat`); `tag` identifies the pixel data
so that distinct images stay distinct in the model. -/
structure Frame where
  rows : ℕ
  cols : ℕ
  tag : ℕ
deriving DecidableEq, Repr

/-- The control actions of the `Command` schema (spec §3). -/
inductive ControlKind where
  | START_STREAMING
  | STOP_STREAMING
  | REBOOT
deriving DecidableEq, Repr

/-- The inbound camera-frame payload as consumed by the handler: encoded
bytes (opaque, identified by a tag), optional camera id, optional
timestamp. -/
structure CameraFrameIn where
  image_data : ℕ
  camera_id : Option ℕ
  timestamp : Option ℤ
deriving DecidableEq, Repr

/-- A decoded command as dispatched by the handler's read loop
(service_impl.cpp:46, 122, 134, 136). -/
inductive ServerCmd where
  | cameraFrame (cf : CameraFrameIn)
  | controlAction (a : ControlKind)
  | heartbeat
  | other
deriving DecidableEq, Repr

/-- A compute→client message as built by the handler.  `empty` is a
`ServerMessage` with no payload set (the handler writes one when encoding
produced no bytes, service_impl.cpp:84-93, or when the detection JSON is
empty, lines 104-116). -/
inductive ServerMessage where
  | empty
  | cameraFrameMsg (image_data : ℕ) (width height : ℕ)
      (camera_id : Option ℕ) (timestamp : Option ℤ)
  | detectionResult (json : String) (camera_id : Option ℕ) (timestamp : Option ℤ)
  | configResponse (success : Bool) (message : String)
deriving DecidableEq, Repr

/-- Result of handling one command: the messages the handler hands to
`stream->Write` (in order), the value of `running` afterwards, and whether
the read loop is exited (`break`). -/
structure StepResult where
  writes : List ServerMessage
  running : Bool
  exitLoop : Bool
deriving DecidableEq, Repr

/-- The lowlight branch of the handler (service_impl.cpp:56-94): run
enhancement; on success JPEG-encode the enhanced frame, on failure
JPEG-encode the *original* frame; if any bytes were produced, wrap them as
a `camera_frame` carrying the encoded frame's dimensions and the request's
camera id and timestamp; otherwise leave the message empty.  External
outcomes are parameters: `enhance` models `hailo_lowlight_process`,
`encode` models `cv::imencode`. -/
def lowlight_reply (frame : Frame) (cf : CameraFrameIn)
    (enhance : Frame → Option Frame) (encode : Frame → Option ℕ) :
    ServerMessage :=
  match enhance frame with
  | some lle_out =>
    match encode lle_out with
    | some bytes =>
      .cameraFrameMsg bytes lle_out.cols lle_out.rows cf.camera_id cf.timestamp
    | none => .empty
  | none =>
    match encode frame with
    | some bytes =>
      .cameraFrameMsg bytes frame.cols frame.rows cf.camera_id cf.timestamp
    | none => .empty

/-- One iteration of the Datastream read loop (service_impl.cpp:34-139)
after a command has been read, with the external calls passed in as
outcome parameters: `decode` models `cv::imdecode` on the frame bytes,
`infer` models `hailo_infer` returning the detection JSON, `writeOk`
models the return value of `stream->Write`.  Initially `running = true`;
the result records the attempted writes, the final `running`, and whether
the loop is left. -/
def datastream_step (lowlight : Bool) (decode : Option Frame)
    (enhance : Frame → Option Frame) (encode : Frame → Option ℕ)
    (infer : Frame → Option String) (writeOk : Bool)
    (cmd : ServerCmd) : StepResult :=
  match cmd with
  | .cameraFrame cf =>
    match decode with
    | none => ⟨[], true, false⟩
    | some frame =>
      if lowlight then
        let sm := lowlight_reply frame cf enhance encode
        if writeOk then ⟨[sm], true, false⟩ else ⟨[sm], false, true⟩
      else
        match infer frame with
        | none => ⟨[], true, false⟩
        | some json =>
          let sm := if json ≠ "" then
              ServerMessage.detectionResult json cf.camera_id cf.timestamp
            else ServerMessage.empty
          if writeOk then ⟨[sm], true, false⟩ else ⟨[sm], false, true⟩
  | .controlAction .REBOOT => ⟨[], true, false⟩
  | .controlAction .START_STREAMING => ⟨[], true, false⟩
  | .controlAction .STOP_STREAMING => ⟨[], false, true⟩
  | .heartbeat => ⟨[], true, false⟩
  | .other => ⟨[], true, false⟩

/-! ### Stream client `Start` (`grpc_client.cpp:101-117`) -/

/-- Result of `GrpcClient::Impl::Start`: the returned boolean, the value of
`running_` afterwards, and whether the reader thread was launched. -/
structure StartResult where
  ret : Bool
  running : Bool
  readerStarted : Bool
deriving DecidableEq, Repr

/-- `GrpcClient::Impl::Start` (grpc_client.cpp:101-117).  If already
running, return true.  Otherwise create the context and the stream
(`streamOk` models whether `stub_->Datastream` returned a non-null
stream); on failure clear `running_` and return false; on success launch
the reader thread and return true.  The channel state is passed in as
`channelReadyWithin5s` to state the spec's claim about it: the source
never consults the channel — no `WaitForConnected`, no state poll — so
the parameter is unused. -/
def client_start (alreadyRunning : Bool) (_channelReadyWithin5s : Bool)
    (streamOk : Bool) : StartResult :=
  if alreadyRunning then ⟨true, true, false⟩
  else if streamOk then ⟨true, true, true⟩
  else ⟨false, false, false⟩

/-! ### Stream client `Send` (`grpc_client.cpp:216-273`)

The `Command` protobuf schema itself is not part of the repository (only
the generated headers are included).  Modelled from the spec: spec §3
defines `Command` as "a tagged variant with exactly one of: control
action, heartbeat, camera frame, detection result, or config request;
exactly-one-of is an invariant the decoder rejects on violation" — i.e. a
protobuf oneof, whose setters replace whichever member was previously
set.  A message value is therefore `Option CommandPayload`: at most one
member, `none` meaning no member set (which the decoder rejects). -/

/-- The members of the `Command` oneof (spec §3). -/
inductive CommandPayload where
  | controlAction (a : ControlKind)
  | heartbeat (ts : ℤ)
  | cameraFrame (cf : CameraFrameIn)
  | detectionResult (json : String)
  | configRequest (threshold : ℚ)
deriving DecidableEq, Repr

/-- A `Command` message under oneof semantics. -/
def Command := Option CommandPayload

/-- Setting a oneof member replaces whatever member was set before
(protobuf generated-code semantics; spec §3's exactly-one-of). -/
def set_member (_ : Command) (p : CommandPayload) : Command := some p

/-- What `GrpcClient::Impl::Send` does with a request string. -/
inductive SendOutcome where
  | wakeupRpc
  | streamWrite (cmd : Command)

/-- `GrpcClient::Impl::Send` (grpc_client.cpp:216-273), up to the stream
write: translate the recognized tokens into a control action, treat
`"wakeup"` as a one-shot unary RPC that never touches the stream
(lines 231-252), wrap any other text as `detection_result.json`; then
unconditionally set the heartbeat timestamp (lines 259-263) before
writing the command to the stream. -/
def send_command (request_data : String) (now : ℤ) : SendOutcome :=
  if request_data = "start_streaming" then
    .streamWrite (set_member (set_member none
      (.controlAction .START_STREAMING)) (.heartbeat now))
  else if request_data = "stop_streaming" then
    .streamWrite (set_member (set_member none
      (.controlAction .STOP_STREAMING)) (.heartbeat now))
  else if request_data = "reboot" ∨ request_data = "32" then
    .streamWrite (set_member (set_member none
      (.controlAction .REBOOT)) (.heartbeat now))
  else if request_data = "wakeup" then
    .wakeupRpc
  else
    .streamWrite (set_member (set_member none
      (.detectionResult request_data)) (.heartbeat now))

/-- The exactly-one-of invariant of the `Command` data model: exactly one
member of the variant is set. -/
def exactlyOneOf (c : Command) : Prop := ∃ p, c = some p

/-! ### Detection-JSON box parser (`grpc_client.cpp:16-91`) -/

/-- `GrpcClient::BBox` (grpc_client.h:26-35); value-initialized to zeroes
by `BBox b{}` at grpc_client.cpp:27. -/
structure ClientBBox where
  x : ℚ
  y : ℚ
  w : ℚ
  h : ℚ
  score : ℚ
  label : String
deriving DecidableEq, Repr

/-- The numeric and string fields the per-object regexes of
`parse_bboxes_from_json` can extract from one case-1 detection object (an
object with an explicit `"bbox":{...}` block).  `none` models a regex
that found no match in the block; `arr` models the in-object
`"bbox":[x,y,w,h]` array fallback of grpc_client.cpp:44-52 (always absent
in a case-1 object, whose bbox is in object form). -/
structure Case1Block where
  x_min : Option ℚ
  y_min : Option ℚ
  x_max : Option ℚ
  y_max : Option ℚ
  arr : Option (ℚ × ℚ × ℚ × ℚ)
  «class» : Option String
  score : Option ℚ
deriving DecidableEq, Repr

/-- The per-object body of the case-1 loop of `parse_bboxes_from_json`
(grpc_client.cpp:25-69): start from a zero-initialized box; copy `x_min`
and `y_min` if matched; set `w := x_max - x` only when the matched
`x_max` is positive, likewise `h`; if `w` or `h` is still non-positive
try the in-object array form; copy class and score if present; finally
push the box only if `w > 0` and `h > 0`, after clamping negative `x` and
`y` to zero (lines 61-66). -/
def parse_case1_block (f : Case1Block) : Option ClientBBox :=
  let x := f.x_min.getD 0
  let y := f.y_min.getD 0
  let x_max := f.x_max.getD 0
  let y_max := f.y_max.getD 0
  let w : ℚ := if x_max > 0 then x_max - x else 0
  let h : ℚ := if y_max > 0 then y_max - y else 0
  let b0 : ClientBBox :=
    if w ≤ 0 ∨ h ≤ 0 then
      match f.arr with
      | some (ax, ay, aw, ah) => ⟨ax, ay, aw, ah, 0, ""⟩
      | none => ⟨x, y, w, h, 0, ""⟩
    else ⟨x, y, w, h, 0, ""⟩
  let b1 : ClientBBox :=
    ⟨b0.x, b0.y, b0.w, b0.h, f.score.getD b0.score, f.«class».getD b0.label⟩
  if b1.w > 0 ∧ b1.h > 0 then
    some ⟨if b1.x < 0 then 0 else b1.x, if b1.y < 0 then 0 else b1.y,
          b1.w, b1.h, b1.score, b1.label⟩
  else none

/-! ### Bounded remote-frame queue (`grpc_client.cpp`) -/

/-- The reader-task enqueue (grpc_client.cpp:194-196): `push_back` the
decoded frame, then if the size exceeds four erase the front (oldest)
entry. -/
def reader_enqueue (q : List Frame) (img : Frame) : List Frame :=
  let q' := q ++ [img]
  if q'.length > 4 then q'.tail else q'

/-- `GrpcClient::Impl::PopRemoteFrame` (grpc_client.cpp:326-332): return
the front entry if present and erase it. -/
def pop_remote_frame (q : List Frame) : Option Frame × List Frame :=
  match q with
  | [] => (none, [])
  | x :: xs => (some x, xs)

/-- An operation on the remote-frame queue. -/
inductive QOp where
  | enq (img : Frame)
  | pop
deriving DecidableEq, Repr

/-- The queue contents after a sequence of enqueues and pops starting from
the empty queue. -/
def run_queue_ops (ops : List QOp) : List Frame :=
  ops.foldl (fun q op =>
    match op with
    | .enq img => reader_enqueue q img
    | .pop => (pop_remote_frame q).2) []

/-! ### Unary `SendJSON` endpoint (`app_comm_service_impl.cpp:12-49`) -/

/-- Outcome of the optional forward to `AIPEX_FORWARD_TARGET`: the
environment variable may be unset, or the unary forward RPC may succeed,
fail with a non-OK status, or throw (caught at
app_comm_service_impl.cpp:40-42). -/
inductive ForwardOutcome where
  | noTarget
  | forwardOk (respMessage : String)
  | forwardFailed (errMessage : String)
  | forwardThrew (what : String)
deriving DecidableEq, Repr

/-- The gRPC status returned by a unary handler. -/
inductive GrpcStatus where
  | OK
  | error (msg : String)
deriving DecidableEq, Repr

/-- The `JSONResponse` message. -/
structure JSONResponse where
  success : Bool
  message : String
deriving DecidableEq, Repr

/-- `AppCommServiceImpl::SendJSON` (app_comm_service_impl.cpp:12-49): log
the payload; if a forward target is configured, attempt the forward and
log its outcome (success, failure and exception are all only logged);
then set `success = true`, `message = "received"` and return `OK`. -/
def app_send_json (_payload : String) (fw : ForwardOutcome) :
    GrpcStatus × JSONResponse :=
  match fw with
  | .noTarget => (.OK, ⟨true, "received"⟩)
  | .forwardOk _ => (.OK, ⟨true, "received"⟩)
  | .forwardFailed _ => (.OK, ⟨true, "received"⟩)
  | .forwardThrew _ => (.OK, ⟨true, "received"⟩)

/-- The spec's reading of the NMS output buffer (§4.2 step 5), written
from the spec's words for comparison with `parse_nms_data`: the group of
class id `c` contributes its records tagged with class id `c + 1` (class
zero reserved as background); `first_class` is the id of the first
group. -/
def spec_nms_records (groups : List (List HailoBBox)) (first_class : ℕ) :
    List NamedBbox :=
  match groups with
  | [] => []
  | g :: gs =>
    g.map (fun b => ⟨b, first_class + 1⟩) ++ spec_nms_records gs (first_class + 1)

/-! ## Theorems -/

/-- C10: for every `JSONRequest` payload, the unary `SendJSON` endpoint
returns `grpc::Status::OK` with `response.success = true` and
`response.message = "received"`, regardless of the payload's content and
regardless of whether the optional forward to `AIPEX_FORWARD_TARGET`
succeeds, fails, or throws. -/
theorem send_json_always_ok (payload : String) (fw : ForwardOutcome) :
    app_send_json payload fw = (.OK, ⟨true, "received"⟩) := by
  cases fw <;> rfl

/-- C9: starting from the empty remote-frame buffer, after any sequence of
reader-task enqueues (which evict the oldest entry on overflow) and
`pop_remote_frame`s, the queue length is at most four. -/
theorem remote_frame_queue_bounded (ops : List QOp) :
    (run_queue_ops ops).length ≤ 4 := by
  suffices h : ∀ q : List Frame, q.length ≤ 4 →
      (ops.foldl (fun q op =>
        match op with
        | .enq img => reader_enqueue q img
        | .pop => (pop_remote_frame q).2) q).length ≤ 4 by
    exact h [] (by simp)
  induction ops with
  | nil => intro q hq; simpa using hq
  | cons op ops ih =>
    intro q hq
    cases op with
    | enq img =>
      rw [List.foldl_cons]
      refine ih _ ?_
      show (reader_enqueue q img).length ≤ 4
      unfold reader_enqueue
      dsimp only
      split <;> rename_i h <;>
        simp only [List.length_tail, List.length_append, List.length_cons,
          List.length_nil] at * <;> omega
    | pop =>
      rw [List.foldl_cons]
      refine ih _ ?_
      show ((pop_remote_frame q).2).length ≤ 4
      cases q with
      | nil => simp [pop_remote_frame]
      | cons x xs => simp [pop_remote_frame] at hq ⊢; omega

/-- C3 counterexample: with a channel that never becomes `READY`
(second argument `false`) and a non-null stream object, `start()` on a
non-running client nevertheless returns success, sets running, and starts
the reader task — it does not fail with `ChannelUnready`, contrary to the
claim that an un-ready channel makes `start()` fail without opening the
stream or starting the reader. -/
theorem client_start_unready_counterexample :
    client_start false false true = ⟨true, true, true⟩ ∧
      ¬((client_start false false true).ret = false ∧
        (client_start false false true).readerStarted = false) := by
  decide

/-- C3 amended: `start()` is idempotent (returns true immediately when
already running) and performs no channel-readiness wait: regardless of
whether the channel ever reaches `READY`, it opens the stream and starts
the reader task, failing only when stream creation itself fails. -/
theorem client_start_no_readiness_wait (ready streamOk : Bool) :
    client_start true ready streamOk = ⟨true, true, false⟩ ∧
      client_start false ready streamOk =
        (if streamOk then ⟨true, true, true⟩ else ⟨false, false, false⟩) := by
  cases streamOk <;> simp [client_start]

/-- C1: contrary to the claim, on `STOP_STREAMING` the compute-side
Datastream handler writes nothing at all (in particular no
`config_response` with message `terminate_ack`) before clearing `running`
and exiting the read loop; and on `REBOOT` it writes nothing, leaves
`running` set, and keeps looping. -/
theorem datastream_stop_reboot_no_terminate_ack (lowlight : Bool)
    (decode : Option Frame) (enhance : Frame → Option Frame)
    (encode : Frame → Option ℕ) (infer : Frame → Option String)
    (writeOk : Bool) :
    datastream_step lowlight decode enhance encode infer writeOk
        (.controlAction .STOP_STREAMING) = ⟨[], false, true⟩ ∧
      datastream_step lowlight decode enhance encode infer writeOk
        (.controlAction .REBOOT) = ⟨[], true, false⟩ :=
  ⟨rfl, rfl⟩

/-- C8: every `Command` the client's `send_command` writes to the stream
satisfies the exactly-one-of invariant of the `Command` data model (the
`"wakeup"` token never touches the stream; every other token yields a
stream write whose message has exactly one member set — under the oneof
semantics of the schema, the unconditional heartbeat write replaces the
previously set member rather than accompanying it). -/
theorem send_command_exactly_one_of (s : String) (now : ℤ) :
    send_command s now = .wakeupRpc ∨
      ∃ c, send_command s now = .streamWrite c ∧ exactlyOneOf c := by
  unfold send_command set_member exactlyOneOf
  repeat' split
  all_goals simp

/-- The push-if-above-threshold loop is list filtering. -/
theorem filtered_bboxes_eq_filter (L : List NamedBbox) (t : ℚ) :
    filtered_bboxes L t = L.filter (fun b => t ≤ b.bbox.score) := by
  unfold filtered_bboxes
  suffices h : ∀ acc : List NamedBbox,
      L.foldl (fun acc b => if b.bbox.score ≥ t then acc ++ [b] else acc) acc
        = acc ++ L.filter (fun b => t ≤ b.bbox.score) by
    simpa using h []
  induction L with
  | nil => intro acc; simp
  | cons x xs ih =>
    intro acc
    by_cases hx : t ≤ x.bbox.score
    · simp [List.filter_cons, hx, ih]
    · simp [List.filter_cons, hx, ih]

/-- C4: for any detection list `L` and threshold `t`, the JSON emitted by
the detection kernel contains exactly the records of `L` whose score is at
least `t`, in order, and its `count` field equals the number of retained
records. -/
theorem hailo_infer_threshold_filter (L : List NamedBbox) (t : ℚ) :
    hailo_infer_json L t
      = ⟨(L.filter (fun b => t ≤ b.bbox.score)).map detRecordOf,
         (L.filter (fun b => t ≤ b.bbox.score)).length⟩ := by
  unfold hailo_infer_json
  rw [filtered_bboxes_eq_filter]

/-- C6 counterexample: with a 1×1 model input (`H·W·3 = 3`) and a single
output buffer of exactly `H·W·3·4 = 12` bytes, the enhancement kernel
decodes the buffer as 8-bit RGB, not as float32 RGB as the claim states:
the selection condition (length ≥ `H·W·3`) already subsumes the 8-bit
test, so the float32 branch can never be taken. -/
theorem lowlight_f32_branch_dead_counterexample :
    hailo_lowlight_reconstruct [12] 1 1 7 9 = some ⟨.u8, 7, 9⟩ ∧
      LLDecode.u8 ≠ LLDecode.f32 := by
  decide

/-- C6 amended: after a successful run the first output buffer whose byte
length is at least `H·W·3` is selected and is always decoded as 8-bit RGB
(the float32 path is unreachable because the selection condition already
guarantees length ≥ `H·W·3`); the decoded image is converted RGB→BGR and
resized to the original input dimensions `(h, w)`; if no buffer of
sufficient size exists the operation fails. -/
theorem lowlight_reconstruct_u8_only (sizes : List ℕ) (mh mw ih iw : ℕ) :
    hailo_lowlight_reconstruct sizes mh mw ih iw
      = match sizes.find? (fun sz => mh * mw * 3 ≤ sz) with
        | none => none
        | some _ => some ⟨.u8, ih, iw⟩ := by
  unfold hailo_lowlight_reconstruct
  dsimp only
  cases h : sizes.find? (fun sz => mh * mw * 3 ≤ sz) with
  | none => simp [h]
  | some sz =>
    have hsz := List.find?_some h
    simp only [decide_eq_true_eq] at hsz
    simp [h, hsz]

/-- C5 counterexample: in lowlight mode, when enhancement fails on a
decoded 320×240 frame, the handler does not drop the frame silently — it
re-encodes the original frame and writes it to the stream as a
`camera_frame` reply, so a message is written for that frame. -/
theorem lowlight_failure_writes_original_counterexample :
    datastream_step true (some ⟨240, 320, 7⟩) (fun _ => none)
        (fun fr => some fr.tag) (fun _ => none) true
        (.cameraFrame ⟨5, some 1, some 100⟩)
      = ⟨[.cameraFrameMsg 7 320 240 (some 1) (some 100)], true, false⟩ ∧
      ([ServerMessage.cameraFrameMsg 7 320 240 (some 1) (some 100)]
        ≠ ([] : List ServerMessage)) := by
  decide

/-- C5 amended: when detection inference fails for a received camera
frame, the handler drops the frame — nothing is written and the stream
continues; but when low-light enhancement fails, the handler falls back
to re-encoding the original frame and writes it to the stream as a
`camera_frame` reply (carrying the original frame's dimensions and the
request's camera id and timestamp); the stream continues in both cases. -/
theorem inference_failure_handling (frame : Frame) (cf : CameraFrameIn)
    (enhance : Frame → Option Frame) (encode : Frame → Option ℕ)
    (infer : Frame → Option String) (bytes : ℕ)
    (henh : enhance frame = none) (hinf : infer frame = none)
    (henc : encode frame = some bytes) :
    datastream_step false (some frame) enhance encode infer true
        (.cameraFrame cf) = ⟨[], true, false⟩ ∧
      datastream_step true (some frame) enhance encode infer true
        (.cameraFrame cf)
        = ⟨[.cameraFrameMsg bytes frame.cols frame.rows cf.camera_id
            cf.timestamp], true, false⟩ := by
  simp [datastream_step, lowlight_reply, henh, hinf, henc]

/-- Witness for `inference_failure_handling` at a concrete frame and
concrete external outcomes. -/
theorem inference_failure_handling_witness :
    datastream_step false (some ⟨240, 320, 9⟩) (fun _ => none)
        (fun fr => some fr.tag) (fun _ => none) true
        (.cameraFrame ⟨5, some 2, some 200⟩) = ⟨[], true, false⟩ ∧
      datastream_step true (some ⟨240, 320, 9⟩) (fun _ => none)
        (fun fr => some fr.tag) (fun _ => none) true
        (.cameraFrame ⟨5, some 2, some 200⟩)
        = ⟨[.cameraFrameMsg 9 320 240 (some 2) (some 200)], true, false⟩ :=
  inference_failure_handling ⟨240, 320, 9⟩ ⟨5, some 2, some 200⟩
    (fun _ => none) (fun fr => some fr.tag) (fun _ => none) 9 rfl rfl rfl

/-- C7 counterexample: on the case-1 object with
`x_min = -1/2, y_min = 1/10, x_max = 1/2, y_max = 3/5` the parser yields
`x = 0`, not the original `x_min = -1/2`: negative `x` (and `y`) are
clamped to zero at parse time, contrary to the claim that coordinates are
kept in their original scale with no clamping at parse time. -/
theorem parse_case1_clamps_counterexample :
    parse_case1_block ⟨some (-1/2), some (1/10), some (1/2), some (3/5),
        none, none, none⟩
      = some ⟨0, 1/10, 1, 1/2, 0, ""⟩ ∧ ((0 : ℚ) ≠ -1/2) := by
  constructor
  · norm_num [parse_case1_block]
  · norm_num

/-- C7 amended: for every case-1 object (explicit
`x_min`/`y_min`/`x_max`/`y_max` bbox block, no array form), every box the
parser accepts has `w = x_max − x_min` and `h = y_max − y_min`, both
positive (so any record whose resulting width or height is non-positive
is rejected), score and label copied from the object, and coordinates in
their original scale except that a negative `x` or `y` is clamped to zero
at parse time. -/
theorem parse_case1_conversion (f : Case1Block) (b : ClientBBox)
    (harr : f.arr = none) (h : parse_case1_block f = some b) :
    b.w = f.x_max.getD 0 - f.x_min.getD 0 ∧
      b.h = f.y_max.getD 0 - f.y_min.getD 0 ∧
      0 < b.w ∧ 0 < b.h ∧
      b.x = (if f.x_min.getD 0 < 0 then 0 else f.x_min.getD 0) ∧
      b.y = (if f.y_min.getD 0 < 0 then 0 else f.y_min.getD 0) ∧
      b.score = f.score.getD 0 ∧
      b.label = f.«class».getD "" := by
  unfold parse_case1_block at h
  rw [harr] at h
  dsimp only at h
  simp only [ite_self] at h
  by_cases hxm : (0:ℚ) < f.x_max.getD 0
  · by_cases hym : (0:ℚ) < f.y_max.getD 0
    · rw [if_pos hxm, if_pos hym] at h
      split at h
      · rename_i hpos
        rw [Option.some.injEq] at h
        subst h
        exact ⟨rfl, rfl, hpos.1, hpos.2, rfl, rfl, rfl, rfl⟩
      · exact absurd h (by simp)
    · rw [if_pos hxm, if_neg hym] at h
      split at h
      · rename_i hpos
        exact absurd hpos.2 (by simp)
      · exact absurd h (by simp)
  · by_cases hym : (0:ℚ) < f.y_max.getD 0
    · rw [if_neg hxm, if_pos hym] at h
      split at h
      · rename_i hpos
        exact absurd hpos.1 (by simp)
      · exact absurd h (by simp)
    · rw [if_neg hxm, if_neg hym] at h
      split at h
      · rename_i hpos
        exact absurd hpos.1 (by simp)
      · exact absurd h (by simp)

/-- Witness for `parse_case1_conversion` at a concrete case-1 object. -/
theorem parse_case1_conversion_witness :
    (0:ℚ) < 2/5 ∧ (2/5 : ℚ) = 1/2 - 1/10 := by
  have h := parse_case1_conversion
    ⟨some (1/10), some (1/5), some (1/2), some (3/5), none, some "car",
      some (9/10)⟩
    ⟨1/10, 1/5, 2/5, 2/5, 9/10, "car"⟩ rfl (by norm_num [parse_case1_block])
  refine ⟨h.2.2.1, ?_⟩
  simpa using h.1

/-- The library floor on `ℚ` agrees with `Rat.floor`. -/
theorem rat_floor_eq_int_floor (q : ℚ) : ⌊q⌋ = Rat.floor q := rfl

/-- A float32 count that encodes a natural number is read back exactly by
the `uint32_t` cast. -/
theorem detCount_natCast (n : ℕ) : detCount ((n : ℕ) : ℚ) = n := by
  unfold detCount
  rw [← rat_floor_eq_int_floor, Int.floor_natCast]
  exact Int.toNat_natCast n

/-- `readRecords` consumes exactly the encoded records of one group, tags
them with `c + 1`, and leaves the rest of the buffer untouched. -/
theorem readRecords_encode (records : List HailoBBox) (rest : List ℚ) (c : ℕ) :
    readRecords
        ((records.flatMap fun b => [b.x_min, b.y_min, b.x_max, b.y_max, b.score])
          ++ rest) c records.length
      = (records.map fun b => ⟨b, c + 1⟩, rest) := by
  induction records with
  | nil => rfl
  | cons b bs ih =>
    simp only [List.flatMap_cons, List.map_cons, List.length_cons,
      List.cons_append, List.append_assoc]
    simp [readRecords, readBBox, ih]

/-- The per-class loop of `parse_nms_data` on an encoded buffer produces
the spec's group reading, from any starting class id. -/
theorem go_encode (groups : List (List HailoBBox)) (c : ℕ) :
    parse_nms_data.go (encodeBuffer groups) c groups.length
      = (spec_nms_records groups c, []) := by
  induction groups generalizing c with
  | nil => rfl
  | cons g gs ih =>
    simp only [encodeBuffer, List.flatMap_cons, spec_nms_records]
    simp only [List.length_cons]
    unfold parse_nms_data.go
    simp only [encodeGroup, List.cons_append, List.headD_cons, List.drop_one,
      List.tail_cons, detCount_natCast]
    rw [readRecords_encode]
    have h2 := ih (c + 1)
    simp only [encodeBuffer] at h2
    simp [h2]

/-- C2 amended: on an output buffer encoding per-class NMS groups, the
detection kernel's parser reads, for each class id `c` in
`[0, class_count)`, a float32 detection count `n` followed by `n` records
of `(x_min, y_min, x_max, y_max, score)`, and associates each record with
class id `c + 1` (class zero reserved as background); `parse_nms_data`
takes the class count as a parameter, but its caller `hailo_infer` passes
the hardcoded literal `80`, not a configured value of four. -/
theorem parse_nms_groups (groups : List (List HailoBBox)) :
    parse_nms_data (encodeBuffer groups) groups.length
        = spec_nms_records groups 0 ∧
      hailo_infer_class_count = 80 := by
  constructor
  · unfold parse_nms_data
    rw [go_encode]
  · rfl

/-- C2 counterexample: the class count used by `hailo_infer` is the
hardcoded literal `80` (hailo_object_detection.cpp:191), not a configured
parameter equal to four as the claim states. -/
theorem class_count_not_four_counterexample :
    hailo_infer_class_count = 80 ∧ hailo_infer_class_count ≠ 4 := by
  decide

end AIpex
